import Mathlib

/-!
Verification development for `generate_textbook_data.py`
(rong2ren/chinese-textbook-downloader).

The file shallowly embeds the two core subsystems of the script:

* the URL tester (`URLTester.test_jsdelivr_link`, `URLTester.get_optimal_urls`,
  `URLTester.test_multiple_urls`) — network responses are injected as explicit
  values, so every probe outcome becomes a parameter of the embedded function;
* the metadata classifier (`GitHubTextbookScanner._parse_textbook_metadata`
  and its helper parsers), translated function by function from the source;
* the tree-processing filter (`GitHubTextbookScanner.process_tree_data`,
  first pass, which decides which repository entries produce records).

All string manipulation helpers below reimplement the exact semantics of the
Python operations used by the script (`str.split`, `str.replace`,
`str.startswith`, `str.endswith`, substring membership, `urllib.parse.quote`,
and the few regular expressions that appear in the source).
-/

/-! ## String helpers mirroring Python primitives -/

/-- Split of a character list at a separator character, mirroring
Python `str.split(sep)` for a one-character separator (always returns at
least one piece; keeps empty pieces). -/
def splitOnCharAux (sep : Char) : List Char → List Char → List (List Char)
  | [], acc => [acc.reverse]
  | c :: cs, acc =>
    if c = sep then acc.reverse :: splitOnCharAux sep cs []
    else splitOnCharAux sep cs (c :: acc)

/-- Python `s.split(sep)` for a one-character separator. -/
def splitOnChar (sep : Char) (s : String) : List String :=
  (splitOnCharAux sep s.data []).map String.mk

/-- Python `'/'.join(parts)`. -/
def joinSlash : List String → String
  | [] => ""
  | [s] => s
  | s :: rest => s ++ "/" ++ joinSlash rest

/-- Containment of a pattern in a character list (Python `pat in s`). -/
def listContains (pat : List Char) : List Char → Bool
  | [] => pat.isEmpty
  | c :: cs => pat.isPrefixOf (c :: cs) || listContains pat cs

/-- Python `pat in s` for strings. -/
def containsSub (s pat : String) : Bool := listContains pat.data s.data

/-- Python `s.endswith(t)`. -/
def endsWithStr (s t : String) : Bool := t.data.isSuffixOf s.data

/-- Python `s.startswith(t)`. -/
def startsWithStr (s t : String) : Bool := t.data.isPrefixOf s.data

/-- Fuel-driven worker for replace-all: replaces every non-overlapping
occurrence of `pat` (non-empty) left to right, exactly like Python
`str.replace`.  The fuel is the length of the scanned list, which bounds the
number of steps because every step consumes at least one character. -/
def replaceGo (pat rep : List Char) : Nat → List Char → List Char
  | _, [] => []
  | 0, l => l
  | Nat.succ fuel, c :: cs =>
    if pat.isPrefixOf (c :: cs) then
      rep ++ replaceGo pat rep fuel ((c :: cs).drop pat.length)
    else
      c :: replaceGo pat rep fuel cs

/-- Python `s.replace(pat, rep)` (all occurrences, left to right). -/
def replaceAll (pat rep s : String) : String :=
  if pat = "" then s else String.mk (replaceGo pat.data rep.data s.data.length s.data)

/-- Numeric value of a decimal digit list, as Python `int` on a digit string. -/
def digitsVal (ds : List Char) : Nat :=
  ds.foldl (fun a c => a * 10 + (c.toNat - 48)) 0

/-- Embedding of the regex search `\.(\d+)$` on the name: if `name` ends with a dot
followed by one or more digits, return the value of the maximal trailing
digit run together with the name with that suffix (dot included) removed. -/
def splitSuffix (s : String) : Option (Nat × String) :=
  let rev := s.data.reverse
  let ds := rev.takeWhile Char.isDigit
  if ds = [] then none
  else
    match rev.drop ds.length with
    | '.' :: rest => some (digitsVal ds.reverse, String.mk rest.reverse)
    | _ => none

/-- Embedding of the regex search `\.pdf\.\d+$` (with `ci = true` for the
`re.IGNORECASE` variant used in `process_tree_data`). -/
def endsWithSplitPdf (ci : Bool) (s : String) : Bool :=
  let rev := s.data.reverse
  let ds := rev.takeWhile Char.isDigit
  if ds = [] then false
  else
    match rev.drop ds.length with
    | '.' :: f :: d :: q :: '.' :: _ =>
      if ci then f.toLower = 'f' && d.toLower = 'd' && q.toLower = 'p'
      else f = 'f' && d = 'd' && q = 'p'
    | _ => false

/-! ## `urllib.parse.quote` with `safe='/'` -/

/-- UTF-8 bytes of a code point. -/
def utf8Bytes (n : Nat) : List Nat :=
  if n < 128 then [n]
  else if n < 2048 then [192 + n / 64, 128 + n % 64]
  else if n < 65536 then [224 + n / 4096, 128 + (n / 64) % 64, 128 + n % 64]
  else [240 + n / 262144, 128 + (n / 4096) % 64, 128 + (n / 64) % 64, 128 + n % 64]

/-- Uppercase hexadecimal digit. -/
def hexChar (n : Nat) : Char := if n < 10 then Char.ofNat (48 + n) else Char.ofNat (55 + n)

/-- Percent-encoding of one character: unreserved characters and `/` pass
through, everything else becomes `%XX` per UTF-8 byte. -/
def quoteChar (c : Char) : List Char :=
  if c.isAlpha || c.isDigit || c = '_' || c = '.' || c = '-' || c = '~' || c = '/' then [c]
  else (utf8Bytes c.toNat).foldr (fun b acc => '%' :: hexChar (b / 16) :: hexChar (b % 16) :: acc) []

/-- Embedding of `urllib.parse.quote(s, safe='/')`. -/
def quotePath (s : String) : String :=
  String.mk (s.data.foldr (fun c acc => quoteChar c ++ acc) [])

/-! ## URLTester embedding -/

/-- Outcome of the HTTP HEAD request issued by `test_jsdelivr_link`: either a
response carrying a status code, or a transport error / timeout carrying the
exception text (`requests.exceptions.RequestException`). -/
inductive HTTPResult where
  | response (status : Nat)
  | error (msg : String)
deriving DecidableEq

/-- The tuple returned by `URLTester.test_jsdelivr_link`. -/
structure ProbeOutcome where
  file_path : String
  success : Bool
  status_code : Nat
  error_msg : String
deriving DecidableEq

/-- `self.jsdelivr_template` up to its `{}` placeholder. -/
def jsdelivrPre : String := "https://cdn.jsdelivr.net/gh/TapXWorld/ChinaTextbook@master/"

/-- `self.fallback_template` up to its `{}` placeholder. -/
def fallbackPre : String :=
  "https://ghfast.top/https://raw.githubusercontent.com/TapXWorld/ChinaTextbook/master/"

/-- jsDelivr CDN mirror URL for a file path (`jsdelivr_template.format(quote(path))`). -/
def jsdelivrURL (fp : String) : String := jsdelivrPre ++ quotePath fp

/-- ghfast.top fallback proxy URL for a file path (`fallback_template.format(quote(path))`). -/
def fallbackURL (fp : String) : String := fallbackPre ++ quotePath fp

/-- `URLTester.test_jsdelivr_link`, with the network response injected as a
parameter.  A response yields `success = (status == 200)` with the actual
status code and empty error text; a `RequestException` is caught and yields
`(False, 0, text of e)`. -/
def test_jsdelivr_link (resp : HTTPResult) (file_path : String) : ProbeOutcome :=
  match resp with
  | .response code => ⟨file_path, code == 200, code, ""⟩
  | .error msg => ⟨file_path, false, 0, msg⟩

/-- The `urls` dictionary built by `get_optimal_urls`. -/
structure URLPair where
  international_url : String
  china_url : String
deriving DecidableEq

/-- `URLTester.get_optimal_urls`: international URL is always the GitHub
direct URL; the china URL is the jsDelivr mirror when the probe succeeded,
otherwise the fallback proxy URL. -/
def get_optimal_urls (resp : HTTPResult) (github_url file_path : String) :
    URLPair × Bool × Nat :=
  let o := test_jsdelivr_link resp file_path
  let china := if o.success then jsdelivrURL file_path else fallbackURL file_path
  (⟨github_url, china⟩, o.success, o.status_code)

/-- Result of one worker task in `test_multiple_urls`: either the task
completed (and `future.result()` returns the `get_optimal_urls` value for the
injected response), or the task raised and `future.result()` re-raises. -/
inductive WorkerResult where
  | done (resp : HTTPResult)
  | raised (msg : String)
deriving DecidableEq

/-- One value of the `results` dictionary built by `test_multiple_urls`. -/
structure TestEntry where
  urls : URLPair
  jsdelivr_works : Bool
  status_code : Nat
  file_path : String
  error : Option String
deriving DecidableEq

/-- Python dictionary assignment `m[k] = v` on an insertion-ordered
association list. -/
def dictInsert (m : List (String × TestEntry)) (k : String) (v : TestEntry) :
    List (String × TestEntry) :=
  match m with
  | [] => [(k, v)]
  | (k', v') :: rest => if k' = k then (k, v) :: rest else (k', v') :: dictInsert rest k v

/-- Processing of one completed future in `test_multiple_urls`: a normal
completion stores the `get_optimal_urls` result; an exception is caught and
converted to a fallback entry with `jsdelivr_works=False`, status code 0 and
the exception text. -/
def processFuture (env : String → String → WorkerResult) (gh fp : String) : TestEntry :=
  match env gh fp with
  | .done resp =>
    let out := get_optimal_urls resp gh fp
    ⟨out.1, out.2.1, out.2.2, fp, none⟩
  | .raised msg => ⟨⟨gh, fallbackURL fp⟩, false, 0, fp, some msg⟩

/-- `URLTester.test_multiple_urls`: builds the `results` dictionary keyed by
`github_url`, one `dictInsert` per completed task.  `env` injects each worker
task outcome; tasks are folded in submission order (one admissible completion
order of the thread pool — the dictionary contents do not depend on the order
when the keys are distinct). -/
def test_multiple_urls (env : String → String → WorkerResult)
    (url_data : List (String × String)) : List (String × TestEntry) :=
  url_data.foldl (fun acc gp => dictInsert acc gp.1 (processFuture env gp.1 gp.2)) []

/-- `URLTester.__init__` state: the worker pool width. -/
structure URLTesterModel where
  max_workers : Nat
deriving DecidableEq

/-- `URLTester(max_workers)`. The Python parameter default is 10. -/
def URLTester_init (max_workers : Nat) : URLTesterModel := ⟨max_workers⟩

/-- The default of the `max_workers` parameter of `URLTester.__init__`. -/
def URLTester_default_max_workers : Nat := 10

/-- The scanner state relevant to URL testing. -/
structure ScannerModel where
  test_urls : Bool
  url_tester : Option URLTesterModel
deriving DecidableEq

/-- `GitHubTextbookScanner.__init__`: when URL testing is enabled the scanner
constructs `URLTester(max_workers=15)`, otherwise no tester. -/
def GitHubTextbookScanner_init (test_urls : Bool) : ScannerModel :=
  ⟨test_urls, if test_urls then some (URLTester_init 15) else none⟩

/-- `GitHubTextbookScanner()` with its Python default `test_urls=True`. -/
def scanner_default : ScannerModel := GitHubTextbookScanner_init true

/-! ## Classifier data model -/

/-- The metadata record built by `_parse_textbook_metadata` (the `result`
dictionary). -/
structure Metadata where
  original_name : String
  parsed_name : String
  subject : String
  grade : String
  semester : String
  level : String
  publisher : String
  part_number : Option Nat
  is_split : Bool
deriving DecidableEq

/-- The dictionary returned by `_parse_special_complex_filename` (exactly the
five keys `subject`, `grade`, `semester`, `level`, `publisher`). -/
structure SpecialMeta where
  subject : String
  grade : String
  semester : String
  level : String
  publisher : String
deriving DecidableEq

/-- One per-level entry of the configuration (`get_default_config`). -/
structure LevelConfig where
  enabled : Bool
  ignorePatterns : List String
  showGrades : Bool
  requireGrades : Bool
deriving DecidableEq

/-- `get_default_config()["levels"]` as a lookup function. -/
def defaultLevels (k : String) : Option LevelConfig :=
  if k = "xiaoxue" then some ⟨true, [], true, false⟩
  else if k = "chuzhong" then some ⟨true, [], true, false⟩
  else if k = "gaozhong" then some ⟨true, [], true, false⟩
  else if k = "daxue" then some ⟨true, [], false, false⟩
  else if k = "xiaoxue45" then some ⟨true, [], true, false⟩
  else if k = "chuzhong45" then some ⟨true, [], true, false⟩
  else none

/-- The `level_mapping` dictionary of `get_level_key_from_path`. -/
def levelMapping (name : String) : Option String :=
  if name = "小学" then some "xiaoxue"
  else if name = "初中" then some "chuzhong"
  else if name = "高中" then some "gaozhong"
  else if name = "大学" then some "daxue"
  else if name = "小学45学制" then some "xiaoxue45"
  else if name = "初中45学制" then some "chuzhong45"
  else none

/-- `GitHubTextbookScanner.get_level_key_from_path`. -/
def getLevelKey (path : String) : Option String :=
  let parts := splitOnChar '/' path
  if parts.isEmpty then none else levelMapping (parts.getD 0 "")

/-- `GitHubTextbookScanner.should_show_grades_for_level` with the default
configuration. -/
def shouldShowGrades (k : String) : Bool :=
  match defaultLevels k with
  | none => true
  | some cfg => cfg.showGrades

/-- `GitHubTextbookScanner.should_ignore_path` with the default configuration
(all levels enabled, no ignore patterns, so the pattern loop is empty). -/
def shouldIgnorePath (_path : String) (level_key : String) : Bool :=
  match defaultLevels level_key with
  | none => false
  | some cfg => !cfg.enabled

/-! ## Pattern library -/

/-- `str.replace('出版社', '版')` as used by `_clean_publisher_name`. -/
def pubReplaceAll (s : String) : String := replaceAll "出版社" "版" s

/-- `GitHubTextbookScanner._clean_publisher_name`. -/
def cleanPublisherName (raw : String) : String :=
  if raw = "" then "未知出版社"
  else if containsSub raw "-" then
    let parts := splitOnChar '-' raw
    let first := parts.getD 0 ""
    if endsWithStr first "版" then first
    else
      let second := parts.getLastD ""
      if endsWithStr second "出版社" then pubReplaceAll second
      else if !endsWithStr second "版" then second ++ "版"
      else second
  else
    if endsWithStr raw "出版社" then pubReplaceAll raw
    else if !endsWithStr raw "版" && !endsWithStr raw "社" then raw ++ "版"
    else raw

/-- Numeral-grade keys of `arabic_to_chinese` in `_normalize_grade_format`. -/
def arabicToChinese (s : String) : Option String :=
  if s = "1" then some "一" else if s = "2" then some "二"
  else if s = "3" then some "三" else if s = "4" then some "四"
  else if s = "5" then some "五" else if s = "6" then some "六"
  else if s = "7" then some "七" else if s = "8" then some "八"
  else if s = "9" then some "九" else if s = "10" then some "十"
  else none

/-- `GitHubTextbookScanner._normalize_grade_format`: if the grade anchors on
`\d+年级` (`re.match`), the first digit run is converted to its ideographic
numeral when it is one of 1..10; everything else passes through. -/
def normalizeGradeFormat (g : String) : String :=
  let ds := g.data.takeWhile Char.isDigit
  if ds ≠ [] && (g.data.drop ds.length).take 2 = ['年', '级'] then
    match arabicToChinese (String.mk ds) with
    | some c => c ++ "年级"
    | none => g
  else g

/-- Leftmost match of `([一二三四五六七八九十]年级)`. -/
def findCharClassGrade : List Char → Option String
  | [] => none
  | c :: cs =>
    if (c = '一' || c = '二' || c = '三' || c = '四' || c = '五' || c = '六' ||
        c = '七' || c = '八' || c = '九' || c = '十') && cs.take 2 = ['年', '级'] then
      some (String.mk [c, '年', '级'])
    else findCharClassGrade cs

/-- Leftmost match of `(\d+年级)`: at each starting digit, the maximal digit
run must be followed directly by `年级` (backtracking inside the run cannot
help, since `年` is not a digit). -/
def findDigitsGrade : List Char → Option String
  | [] => none
  | c :: cs =>
    if c.isDigit then
      let run := (c :: cs).takeWhile Char.isDigit
      if ((c :: cs).drop run.length).take 2 = ['年', '级'] then
        some (String.mk (run ++ ['年', '级']))
      else findDigitsGrade cs
    else findDigitsGrade cs

/-- Leftmost match of `(必修\d+)` / `(选修\d+)`: the two keyword characters
followed by at least one digit; the group takes the maximal digit run. -/
def findKwDigits (k1 k2 : Char) : List Char → Option String
  | [] => none
  | c :: cs =>
    if [k1, k2].isPrefixOf (c :: cs) then
      let run := ((c :: cs).drop 2).takeWhile Char.isDigit
      if run ≠ [] then some (String.mk ([k1, k2] ++ run))
      else findKwDigits k1 k2 cs
    else findKwDigits k1 k2 cs

/-- Literal grade patterns of `_extract_grade_from_name`, in source order
after the four non-literal patterns. -/
def gradeLiterals : List String :=
  ["全一册", "低年级", "高年级", "中年级", "幼儿园", "学前班",
   "高一", "高二", "高三", "初一", "初二", "初三",
   "七年级", "八年级", "九年级", "大一", "大二", "大三", "大四",
   "中考", "高考", "练习题", "复习", "预习",
   "上学期", "下学期", "第一学期", "第二学期"]

/-- `_extract_grade_from_name` before normalization: the ordered pattern list
(first match wins). -/
def extractGradeRaw (name : String) : Option String :=
  match findCharClassGrade name.data with
  | some g => some g
  | none =>
  match findDigitsGrade name.data with
  | some g => some g
  | none =>
  match findKwDigits '必' '修' name.data with
  | some g => some g
  | none =>
  match findKwDigits '选' '修' name.data with
  | some g => some g
  | none => gradeLiterals.findSome? (fun pat => if containsSub name pat then some pat else none)

/-- `GitHubTextbookScanner._extract_grade_from_name` (each match is passed
through `_normalize_grade_format`). -/
def extractGrade (name : String) : Option String :=
  (extractGradeRaw name).map normalizeGradeFormat

/-- `GitHubTextbookScanner._extract_semester_from_name`. -/
def extractSemester (name : String) : Option String :=
  if containsSub name "上册" then some "first"
  else if containsSub name "下册" then some "second"
  else if containsSub name "全一册" || containsSub name "必修" || containsSub name "选修" then
    some "complete"
  else none

/-- The special series title handled by the classifier. -/
def seriesName : String := "习近平新时代中国特色社会主义思想学生读本"

/-- The regex search `生物(?\!学)`: an occurrence of `生物` not directly
followed by `学`. -/
def hasShengwuNotXue : List Char → Bool
  | [] => false
  | '生' :: '物' :: rest =>
    (match rest with
     | [] => true
     | c :: _ => c ≠ '学') || hasShengwuNotXue ('物' :: rest)
  | _ :: rest => hasShengwuNotXue rest

/-- Generic single-token subject patterns of `_extract_subject_from_name`,
in source order. -/
def subjectLiterals : List String :=
  ["语文", "数学", "英语", "物理", "化学", "生物学",
   "历史", "地理", "政治", "道德与法治", "科学",
   "音乐", "美术", "体育与健康", "信息技术",
   "高等数学", "线性代数", "概率论", "大学物理", "大学英语",
   "计算机", "思想品德", "社会", "自然",
   "综合实践", "通用技术", "俄语", "日语",
   "人文地理", "心理健康", "劳动技术", "书法",
   "传统文化", "国学", "经典诵读"]

/-- `GitHubTextbookScanner._extract_subject_from_name`. -/
def extractSubject (name : String) : Option String :=
  if containsSub name seriesName then some "道德与法治"
  else if containsSub name "思想品德" then some "道德与法治"
  else if containsSub name "品德与生活" then some "道德与法治"
  else if containsSub name "品德与社会" then some "道德与法治"
  else if containsSub name "思想政治" then some "政治"
  else if containsSub name "生物学" then some "生物学"
  else if hasShengwuNotXue name.data then some "生物学"
  else subjectLiterals.findSome? (fun pat => if containsSub name pat then some pat else none)

/-! ## Classifier parsers -/

/-- `GitHubTextbookScanner._parse_special_complex_filename`.  The assignment of
`complete` to the semester and the early return sit inside the block of the
source guarded by level still unknown and a truthy path, and are
mirrored here exactly (Python truthiness of `path` is `path` not `None` and
not empty). -/
def parseSpecialComplexFilename (name : String) (path : Option String) : SpecialMeta :=
  let r : SpecialMeta := ⟨"unknown", "unknown", "unknown", "unknown", "未知出版社"⟩
  if containsSub name seriesName then
    let r := { r with subject := "道德与法治", publisher := "人民出版社" }
    let r :=
      if containsSub name "小学低年级" then { r with grade := "低年级", level := "小学" }
      else if containsSub name "小学高年级" then { r with grade := "高年级", level := "小学" }
      else if containsSub name "小学中年级" then { r with grade := "中年级", level := "小学" }
      else if containsSub name "初中" then { r with grade := "全册", level := "初中" }
      else if containsSub name "高中" then { r with grade := "全册", level := "高中" }
      else if containsSub name "小学" then { r with grade := "全册", level := "小学" }
      else r
    match path with
    | some p =>
      if r.level = "unknown" ∧ p ≠ "" then
        let parts := splitOnChar '/' p
        let r :=
          if parts.length > 0 then
            let firstPart := parts.getD 0 ""
            if firstPart = "小学" ∨ firstPart = "初中" ∨ firstPart = "高中" ∨ firstPart = "大学" then
              let r := { r with level := firstPart }
              if r.grade = "unknown" then { r with grade := "全册" } else r
            else r
          else r
        { r with semester := "complete" }
      else r
    | none => r
  else r

/-- The merge loop of `_parse_from_filename_only` (lines 559-561): every
special-rule value other than `unknown` / `未知出版社` overwrites, with no
exception for `level`. -/
def mergePlain (r : Metadata) (sp : SpecialMeta) : Metadata :=
  let r1 := if sp.subject ≠ "unknown" ∧ sp.subject ≠ "未知出版社" then
              { r with subject := sp.subject } else r
  let r2 := if sp.grade ≠ "unknown" ∧ sp.grade ≠ "未知出版社" then
              { r1 with grade := sp.grade } else r1
  let r3 := if sp.semester ≠ "unknown" ∧ sp.semester ≠ "未知出版社" then
              { r2 with semester := sp.semester } else r2
  let r4 := if sp.level ≠ "unknown" ∧ sp.level ≠ "未知出版社" then
              { r3 with level := sp.level } else r3
  if sp.publisher ≠ "unknown" ∧ sp.publisher ≠ "未知出版社" then
    { r4 with publisher := sp.publisher } else r4

/-- The merge loop of `_parse_textbook_metadata` (lines 408-412): like
`mergePlain`, but a `level` already resolved by the structural parse is kept
(the `continue` for the level key). -/
def mergeSpecial (r : Metadata) (sp : SpecialMeta) : Metadata :=
  let r1 := if sp.subject ≠ "unknown" ∧ sp.subject ≠ "未知出版社" then
              { r with subject := sp.subject } else r
  let r2 := if sp.grade ≠ "unknown" ∧ sp.grade ≠ "未知出版社" then
              { r1 with grade := sp.grade } else r1
  let r3 := if sp.semester ≠ "unknown" ∧ sp.semester ≠ "未知出版社" then
              { r2 with semester := sp.semester } else r2
  let r4 := if sp.level ≠ "unknown" ∧ sp.level ≠ "未知出版社" then
              (if r3.level ≠ "unknown" then r3 else { r3 with level := sp.level })
            else r3
  if sp.publisher ≠ "unknown" ∧ sp.publisher ≠ "未知出版社" then
    { r4 with publisher := sp.publisher } else r4

/-- `GitHubTextbookScanner._parse_from_filename_only`. -/
def parseFromFilenameOnly (r : Metadata) : Metadata :=
  let name := r.parsed_name
  let sp := parseSpecialComplexFilename name none
  if sp.subject ≠ "unknown" then mergePlain r sp
  else
    let r1 := match extractSubject name with
      | some s => { r with subject := s }
      | none => r
    let r2 := match extractGrade name with
      | some g => { r1 with grade := g }
      | none => r1
    match extractSemester name with
    | some s => { r2 with semester := s }
    | none => r2

/-- The leaf-file test applied to the third and fourth path components of
`_parse_regular_textbook_pattern`. -/
def isLeafComponent (s : String) : Bool :=
  endsWithStr s ".pdf" || endsWithSplitPdf false s ||
  containsSub s ".pdf_merge_folder" || startsWithStr s "义务教育教科书"

/-- The grade taken from the filename in the leaf-file branches of
`_parse_regular_textbook_pattern` (special complex-filename parse first, then
`_extract_grade_from_name`, else `unknown`). -/
def gradeFromFilename (parsed_name : String) : String :=
  let sp := parseSpecialComplexFilename parsed_name none
  if sp.grade ≠ "unknown" then sp.grade
  else (extractGrade parsed_name).getD "unknown"

/-- `GitHubTextbookScanner._parse_regular_textbook_pattern`. -/
def parse_regular (parts : List String) (r : Metadata) : Metadata :=
  let p0 := parts.getD 0 ""
  let r := { r with level := if p0 ≠ "" then p0 else "unknown" }
  let level_key := getLevelKey (joinSlash parts)
  let show_grades := match level_key with
    | some k => shouldShowGrades k
    | none => true
  let p1 := parts.getD 1 ""
  let r := { r with subject := if parts.length > 1 ∧ p1 ≠ "" then p1 else "unknown" }
  let r :=
    if parts.length ≥ 3 then
      let third := parts.getD 2 ""
      if isLeafComponent third then
        let r := { r with publisher := "未知出版社" }
        if show_grades then { r with grade := gradeFromFilename r.parsed_name }
        else { r with grade := "course" }
      else
        let r := { r with publisher := cleanPublisherName third }
        if parts.length ≥ 4 then
          let fourth := parts.getD 3 ""
          if isLeafComponent fourth then
            if show_grades then { r with grade := gradeFromFilename r.parsed_name }
            else { r with grade := "course" }
          else
            if show_grades then { r with grade := fourth }
            else { r with grade := "course" }
        else
          { r with grade := if !show_grades then "course" else "unknown" }
    else r
  { r with semester := (extractSemester r.parsed_name).getD "unknown" }

/-- `GitHubTextbookScanner._parse_math_practice_pattern`; `p` is the full
path (`'/'.join(path_parts)` in the source equals the path the parts came
from). -/
def parseMathPractice (p : String) (parts : List String) (r : Metadata) : Metadata :=
  let r := { r with subject := "数学练习", grade := "练习题",
                    publisher := "练习题集", semester := "practice" }
  let r :=
    if parts.length ≥ 2 then
      let second := parts.getD 1 ""
      if containsSub second "初中练习题" then
        let r := { r with level := "初中" }
        if containsSub r.original_name "中考" || containsSub p "中考" then
          { r with subject := "中考数学", grade := "中考练习" }
        else
          { r with subject := "数学练习", grade := (extractGrade r.parsed_name).getD "数学练习" }
      else if containsSub second "高中练习题" then
        let r := { r with level := "高中" }
        if containsSub r.original_name "高考" || containsSub p "高考" then
          { r with subject := "高考数学", grade := "高考练习" }
        else
          { r with subject := "数学练习", grade := (extractGrade r.parsed_name).getD "数学练习" }
      else if containsSub second "小学练习题" then
        { r with level := "小学", subject := "数学练习",
                 grade := (extractGrade r.parsed_name).getD "数学练习" }
      else { r with level := "初中" }
    else { r with level := "初中" }
  if parts.length ≥ 3 then
    let test_name := parts.getD 2 ""
    if containsSub test_name "版" || containsSub test_name "出版社" then
      { r with publisher := cleanPublisherName test_name }
    else
      { r with publisher := if test_name ≠ "" then test_name else "练习题集" }
  else r

/-- The filename with every `.pdf` and then every `.PDF` occurrence removed
(`str.replace` with the empty replacement, applied twice). -/
def stripPdfExt (filename : String) : String :=
  replaceAll ".PDF" "" (replaceAll ".pdf" "" filename)

/-- The `result` record right after default initialization and split-file
detection in `_parse_textbook_metadata` (lines 364-382). -/
def initMetadata (filename : String) : Metadata :=
  let base := stripPdfExt filename
  let r : Metadata :=
    ⟨filename, base, "unknown", "unknown", "unknown", "unknown", "未知出版社", none, false⟩
  match splitSuffix base with
  | some nb => { r with part_number := some nb.1, parsed_name := nb.2, is_split := true }
  | none => r

/-- `GitHubTextbookScanner._parse_textbook_metadata` (classify). -/
def parse_textbook_metadata (filename : String) (path : Option String) : Metadata :=
  let r := initMetadata filename
  match path with
  | none => parseFromFilenameOnly r
  | some p =>
    if p = "" then parseFromFilenameOnly r
    else
      let parts := splitOnChar '/' p
      if startsWithStr p "学数学最重要的刷习题在这里/" then parseMathPractice p parts r
      else if 3 ≤ parts.length then
        let pr := parse_regular parts r
        if pr.subject = "unknown" ∨ pr.grade = "unknown" ∨ pr.grade = r.parsed_name then
          let sp := parseSpecialComplexFilename r.parsed_name (some p)
          if sp.subject ≠ "unknown" then mergeSpecial pr sp else pr
        else pr
      else parseFromFilenameOnly r

/-- The structural-parse result the merge step of claim C6 starts from. -/
def structuralResult (filename p : String) : Metadata :=
  parse_regular (splitOnChar '/' p) (initMetadata filename)

/-- The special complex-filename rule result the merge step of claim C6
merges in. -/
def specialRuleResult (filename p : String) : SpecialMeta :=
  parseSpecialComplexFilename (initMetadata filename).parsed_name (some p)

/-! ## process_tree_data (first pass) -/

/-- One entry of the GitHub trees API response. -/
structure TreeItem where
  path : String
  type : String
  size : Nat
deriving DecidableEq

/-- `self.raw_base_url`. -/
def rawBase : String := "https://raw.githubusercontent.com/TapXWorld/ChinaTextbook/master"

/-- `os.path.basename` for the repository paths (substring after the last
slash). -/
def basename (p : String) : String := (splitOnChar '/' p).getLastD ""

/-- One element of the `textbooks` list built by `process_tree_data`. -/
structure TextbookEntry where
  level : String
  subject : String
  grade : String
  semester : String
  publisher : String
  title : String
  file_path : String
  file_name : String
  download_url : String
  international_url : String
  china_url : String
  is_split : Bool
  part_number : Option Nat
  file_size : Nat
deriving DecidableEq

/-- The textbook entry built for one qualifying tree item (lines 820-845). -/
def mkTextbookEntry (item : TreeItem) : TextbookEntry :=
  let p := item.path
  let fn := basename p
  let parsed := parse_textbook_metadata fn (some p)
  let gh := rawBase ++ "/" ++ quotePath p
  ⟨parsed.level,
   if parsed.subject ≠ "" then parsed.subject else "unknown",
   if parsed.grade ≠ "" then parsed.grade else "unknown",
   if parsed.semester ≠ "" then parsed.semester else "unknown",
   parsed.publisher, parsed.parsed_name, p, fn, gh, gh, gh,
   parsed.is_split, parsed.part_number, item.size⟩

/-- The per-item decision of the first pass of
`GitHubTextbookScanner.process_tree_data`: only `blob` entries whose path
ends with `.pdf` / `.PDF` or matches the case-insensitive split-file pattern
produce a record, minus those ignored by configuration (never, with the
default configuration). -/
def processTreeItem (item : TreeItem) : Option TextbookEntry :=
  if item.type = "blob" ∧
     (endsWithStr item.path ".pdf" || endsWithStr item.path ".PDF" ||
      endsWithSplitPdf true item.path) then
    match getLevelKey item.path with
    | some k => if shouldIgnorePath item.path k then none else some (mkTextbookEntry item)
    | none => some (mkTextbookEntry item)
  else none

/-- First pass of `GitHubTextbookScanner.process_tree_data` (the second pass,
URL testing, is `test_multiple_urls` above). -/
def process_tree_data (tree : List TreeItem) : List TextbookEntry :=
  tree.filterMap processTreeItem

/-! ## Shared helper lemmas -/

theorem data_append (s t : String) : (s ++ t).data = s.data ++ t.data := rfl

theorem len_append (s t : String) : (s ++ t).length = s.length + t.length := by
  show (s.data ++ t.data).length = s.data.length + t.data.length
  exact List.length_append s.data t.data

theorem jsdelivr_ne_fallback (fp : String) : jsdelivrURL fp ≠ fallbackURL fp := by
  intro h
  have hl := congrArg String.length h
  rw [jsdelivrURL, fallbackURL, len_append, len_append] at hl
  have h1 : jsdelivrPre.length = 59 := by decide
  have h2 : fallbackPre.length = 84 := by decide
  omega

/-! ## Claim C1 -/

/-- Claim C1: for every candidate file path, `get_optimal_urls` sets the
primary (international) URL to the direct GitHub origin URL regardless of
probe outcome, and sets the alternate (china) URL to the jsDelivr CDN mirror
URL exactly when the probe reports reachable, and to the ghfast.top
fallback-proxy URL whenever the probe reports not reachable (the two
templates can never coincide). -/
theorem C1_optimal_urls (resp : HTTPResult) (github_url file_path : String) :
    (get_optimal_urls resp github_url file_path).1.international_url = github_url ∧
    (get_optimal_urls resp github_url file_path).2.1 =
      (test_jsdelivr_link resp file_path).success ∧
    (get_optimal_urls resp github_url file_path).1.china_url =
      (if (get_optimal_urls resp github_url file_path).2.1 then jsdelivrURL file_path
       else fallbackURL file_path) ∧
    jsdelivrURL file_path ≠ fallbackURL file_path :=
  ⟨rfl, rfl, rfl, jsdelivr_ne_fallback file_path⟩

/-! ## Claim C3 -/

/-- Claim C3, counterexample: the claim states that for any non-success
status the outcome has `statusCode` 0 and a populated error text; the code
instead records the actual status code (here 404) and an empty error text. -/
theorem C3_counterexample :
    (test_jsdelivr_link (HTTPResult.response 404) "a.pdf").success = false ∧
    (test_jsdelivr_link (HTTPResult.response 404) "a.pdf").status_code = 404 ∧
    ¬ ((test_jsdelivr_link (HTTPResult.response 404) "a.pdf").status_code = 0 ∧
       (test_jsdelivr_link (HTTPResult.response 404) "a.pdf").error_msg ≠ "") := by
  refine ⟨rfl, rfl, ?_⟩
  intro h
  exact absurd h.1 (by decide)

/-- Claim C3, amended: `test_jsdelivr_link` never raises (it is total on the
injected transport outcome); it reports reachable exactly for a response
with status 200; any other response status yields `reachable=false` with
that status code and an empty error text; a transport error or timeout
yields `reachable=false` with status code 0 and the exception text. -/
theorem C3_probe_outcome (resp : HTTPResult) (fp : String) :
    (test_jsdelivr_link resp fp).file_path = fp ∧
    ((test_jsdelivr_link resp fp).success = true ↔ resp = HTTPResult.response 200) ∧
    (∀ c, resp = HTTPResult.response c →
       (test_jsdelivr_link resp fp).status_code = c ∧
       (test_jsdelivr_link resp fp).error_msg = "") ∧
    (∀ m, resp = HTTPResult.error m →
       (test_jsdelivr_link resp fp).success = false ∧
       (test_jsdelivr_link resp fp).status_code = 0 ∧
       (test_jsdelivr_link resp fp).error_msg = m) := by
  cases resp with
  | response c =>
    refine ⟨rfl, ?_, ?_, ?_⟩
    · simp [test_jsdelivr_link]
    · intro c' hc'
      cases hc'
      exact ⟨rfl, rfl⟩
    · intro m hm
      cases hm
  | error m =>
    refine ⟨rfl, ?_, ?_, ?_⟩
    · simp [test_jsdelivr_link]
    · intro c' hc'
      cases hc'
    · intro m' hm'
      cases hm'
      exact ⟨rfl, rfl, rfl⟩

/-- Claim C3, witness for the amended theorem at a concrete transport
error. -/
theorem C3_witness :
    (test_jsdelivr_link (HTTPResult.error "timeout") "x.pdf").status_code = 0 ∧
    (test_jsdelivr_link (HTTPResult.error "timeout") "x.pdf").error_msg = "timeout" ∧
    (test_jsdelivr_link (HTTPResult.error "timeout") "x.pdf").success = false := by
  have h := C3_probe_outcome (HTTPResult.error "timeout") "x.pdf"
  obtain ⟨-, -, -, herr⟩ := h
  obtain ⟨h1, h2, h3⟩ := herr "timeout" rfl
  exact ⟨h2, h3, h1⟩

/-! ## Claim C9 -/

/-- Claim C9: the concurrent probe scheduler dispatches candidate paths to a
fixed-size worker pool whose default width is 15: under the scanner
defaults (`test_urls=True`) the scanner constructs its URL tester with
`max_workers = 15` (the `URLTester.__init__` parameter default, 10, is never
used by the scanner). -/
theorem C9_pool_width :
    scanner_default.test_urls = true ∧
    scanner_default.url_tester = some (URLTester_init 15) ∧
    (GitHubTextbookScanner_init true).url_tester.map URLTesterModel.max_workers = some 15 :=
  ⟨rfl, rfl, rfl⟩

/-! ## Claim C2 -/

theorem dictInsert_fresh (m : List (String × TestEntry)) (k : String) (v : TestEntry)
    (h : k ∉ m.map Prod.fst) : dictInsert m k v = m ++ [(k, v)] := by
  induction m with
  | nil => rfl
  | cons hd tl ih =>
    simp only [List.map_cons, List.mem_cons] at h
    push_neg at h
    simp only [dictInsert, if_neg (Ne.symm h.1), List.cons_append]
    rw [ih h.2]

theorem tmu_foldl (env : String → String → WorkerResult) :
    ∀ (l : List (String × String)) (acc : List (String × TestEntry)),
      (l.map Prod.fst).Nodup →
      (∀ k, k ∈ l.map Prod.fst → k ∉ acc.map Prod.fst) →
      l.foldl (fun acc gp => dictInsert acc gp.1 (processFuture env gp.1 gp.2)) acc
        = acc ++ l.map (fun gp => (gp.1, processFuture env gp.1 gp.2)) := by
  intro l
  induction l with
  | nil => intro acc _ _; simp
  | cons hd tl ih =>
    intro acc hnd hfresh
    simp only [List.map_cons, List.nodup_cons] at hnd
    simp only [List.foldl_cons]
    rw [dictInsert_fresh acc hd.1 _ (hfresh hd.1 (by simp))]
    rw [ih (acc ++ [(hd.1, processFuture env hd.1 hd.2)]) hnd.2 ?fresh]
    · simp
    case fresh =>
      intro k hk
      simp only [List.map_append, List.mem_append, List.map_cons]
      rintro (hmem | hmem)
      · exact hfresh k (by simp [hk]) hmem
      · simp only [List.map_nil, List.mem_singleton] at hmem
        rw [hmem] at hk
        exact hnd.1 hk

/-- The `results` dictionary equals one entry per input pair, in order, when
the `github_url` keys are pairwise distinct. -/
theorem tmu_eq_map (env : String → String → WorkerResult) (url_data : List (String × String))
    (hnd : (url_data.map Prod.fst).Nodup) :
    test_multiple_urls env url_data
      = url_data.map (fun gp => (gp.1, processFuture env gp.1 gp.2)) := by
  have h := tmu_foldl env url_data [] hnd (by intro k _ hk; simp at hk)
  simpa [test_multiple_urls] using h

/-- Claim C2, counterexample: `results` is keyed by `github_url` alone, so a
list of two distinct `(github_url, file_path)` pairs sharing one
`github_url` produces a single entry, not one result per input. -/
theorem C2_counterexample :
    (test_multiple_urls (fun _ _ => WorkerResult.done (HTTPResult.response 200))
        [("u", "p1"), ("u", "p2")]).length = 1 ∧
    ([("u", "p1"), ("u", "p2")] : List (String × String)).length = 2 := by
  constructor
  · rfl
  · rfl

/-- Claim C2, amended: for every input list whose `github_url` components are
pairwise distinct, `test_multiple_urls` returns a mapping with exactly one
result per input — no duplicates, no omissions — regardless of how many
probes fail, time out, or fault; an exception raised by a worker task is
converted into a recorded outcome with `jsdelivr_works=false`, status code 0,
the fault text preserved, and the fallback-proxy china URL, and does not
abort the sibling tasks or the overall run. -/
theorem C2_results_complete (env : String → String → WorkerResult)
    (url_data : List (String × String))
    (hnd : (url_data.map Prod.fst).Nodup) :
    (test_multiple_urls env url_data).length = url_data.length ∧
    ∀ gh fp, (gh, fp) ∈ url_data →
      ∃ e, (gh, e) ∈ test_multiple_urls env url_data ∧
        e.file_path = fp ∧
        e.urls.international_url = gh ∧
        ∀ msg, env gh fp = WorkerResult.raised msg →
          e.jsdelivr_works = false ∧ e.status_code = 0 ∧ e.error = some msg ∧
          e.urls.china_url = fallbackURL fp := by
  rw [tmu_eq_map env url_data hnd]
  constructor
  · simp
  · intro gh fp hmem
    refine ⟨processFuture env gh fp, ?_, ?_, ?_, ?_⟩
    · exact List.mem_map.mpr ⟨(gh, fp), hmem, rfl⟩
    · cases h : env gh fp <;> simp [processFuture, h, get_optimal_urls]
    · cases h : env gh fp <;> simp [processFuture, h, get_optimal_urls]
    · intro msg hmsg
      simp [processFuture, hmsg]

/-- Environment used by the C2 witness: the worker of the first URL faults, the
second completes normally. -/
def envWitness : String → String → WorkerResult :=
  fun gh _ => if gh = "u1" then WorkerResult.raised "boom" else WorkerResult.done (HTTPResult.response 200)

/-- Claim C2, witness: two pairs with distinct `github_url` keys, one worker
faulting, still yield two results, and the faulting one records status 0,
the fault text and the fallback URL. -/
theorem C2_witness :
    (test_multiple_urls envWitness [("u1", "p1"), ("u2", "p2")]).length = 2 ∧
    ∃ e, ("u1", e) ∈ test_multiple_urls envWitness [("u1", "p1"), ("u2", "p2")] ∧
      e.status_code = 0 ∧ e.error = some "boom" ∧ e.urls.china_url = fallbackURL "p1" := by
  have h := C2_results_complete envWitness [("u1", "p1"), ("u2", "p2")] (by decide)
  obtain ⟨hlen, hmem⟩ := h
  refine ⟨hlen, ?_⟩
  obtain ⟨e, he, -, -, hraise⟩ := hmem "u1" "p1" (by simp)
  obtain ⟨-, h0, hmsg, hfb⟩ := hraise "boom" rfl
  exact ⟨e, he, h0, hmsg, hfb⟩

/-! ## Split-field preservation through the cascade (claims C4, C5) -/

/-- The three split-related fields of a metadata record; every stage after
split detection leaves them untouched. -/
def splitView (r : Metadata) : Bool × Option Nat × String :=
  (r.is_split, r.part_number, r.parsed_name)

theorem mergePlain_splitView (r : Metadata) (sp : SpecialMeta) :
    splitView (mergePlain r sp) = splitView r := by
  unfold mergePlain splitView
  dsimp only
  repeat' split
  all_goals rfl

theorem mergeSpecial_splitView (r : Metadata) (sp : SpecialMeta) :
    splitView (mergeSpecial r sp) = splitView r := by
  unfold mergeSpecial splitView
  dsimp only
  repeat' split
  all_goals rfl

theorem parseFromFilenameOnly_splitView (r : Metadata) :
    splitView (parseFromFilenameOnly r) = splitView r := by
  unfold parseFromFilenameOnly
  dsimp only
  split
  · exact mergePlain_splitView r _
  · unfold splitView
    repeat' split
    all_goals rfl

theorem parse_regular_splitView (parts : List String) (r : Metadata) :
    splitView (parse_regular parts r) = splitView r := by
  unfold parse_regular splitView
  dsimp only
  repeat' split
  all_goals rfl

theorem parseMathPractice_splitView (p : String) (parts : List String) (r : Metadata) :
    splitView (parseMathPractice p parts r) = splitView r := by
  unfold parseMathPractice splitView
  dsimp only
  repeat' split
  all_goals rfl

/-- The split fields of a classified record are exactly those set by the
split detection step. -/
theorem classify_splitView (fn : String) (path : Option String) :
    splitView (parse_textbook_metadata fn path) = splitView (initMetadata fn) := by
  unfold parse_textbook_metadata
  cases path with
  | none => exact parseFromFilenameOnly_splitView _
  | some p =>
    by_cases hp : p = ""
    · simp only [hp, if_pos rfl]
      exact parseFromFilenameOnly_splitView _
    · simp only [if_neg hp]
      split
      · exact parseMathPractice_splitView _ _ _
      · split
        · split
          · split
            · exact (mergeSpecial_splitView _ _).trans (parse_regular_splitView _ _)
            · exact parse_regular_splitView _ _
          · exact parse_regular_splitView _ _
        · exact parseFromFilenameOnly_splitView _

/-! ## Claim C5 -/

/-- Claim C5: for every record returned by the classifier, over all
filename/path inputs, `part_number` is present (non-none) if and only if
`is_split` is true. -/
theorem C5_part_number_iff_split (fn : String) (path : Option String) :
    (parse_textbook_metadata fn path).is_split = true ↔
    (parse_textbook_metadata fn path).part_number ≠ none := by
  have h := classify_splitView fn path
  have h1 : (parse_textbook_metadata fn path).is_split = (initMetadata fn).is_split :=
    congrArg Prod.fst h
  have h2 : (parse_textbook_metadata fn path).part_number = (initMetadata fn).part_number :=
    congrArg (fun t => t.2.1) h
  rw [h1, h2]
  unfold initMetadata
  cases hss : splitSuffix (stripPdfExt fn) <;> simp [hss]

/-! ## Claim C4 -/

theorem takeWhile_stop (p : Char → Bool) (l1 : List Char) (x : Char) (l2 : List Char)
    (h1 : ∀ c ∈ l1, p c = true) (h2 : p x = false) :
    (l1 ++ x :: l2).takeWhile p = l1 := by
  induction l1 with
  | nil => simp [List.takeWhile_cons, h2]
  | cons c cs ih =>
    have hc : p c = true := h1 c (by simp)
    simp only [List.cons_append, List.takeWhile_cons, hc, if_pos]
    rw [ih (fun d hd => h1 d (by simp [hd]))]

/-- Evaluation of the split-suffix regular expression on a name that
decomposes as `base ++ "." ++ digits`. -/
theorem splitSuffix_append (base : String) (ds : List Char) (hne : ds ≠ [])
    (hdig : ∀ c ∈ ds, c.isDigit = true) :
    splitSuffix (base ++ "." ++ String.mk ds) = some (digitsVal ds, base) := by
  obtain ⟨l⟩ := base
  have hdata : (String.mk l ++ "." ++ String.mk ds).data = l ++ '.' :: ds := by
    show (l ++ ['.']) ++ ds = l ++ '.' :: ds
    simp
  unfold splitSuffix
  dsimp only
  rw [hdata]
  have hrev : (l ++ '.' :: ds).reverse = ds.reverse ++ '.' :: l.reverse := by
    simp
  rw [hrev]
  have htw : (ds.reverse ++ '.' :: l.reverse).takeWhile Char.isDigit = ds.reverse :=
    takeWhile_stop _ _ _ _ (fun c hc => hdig c (List.mem_reverse.mp hc)) (by decide)
  rw [htw]
  rw [if_neg (by simpa using hne)]
  have hdrop : (ds.reverse ++ '.' :: l.reverse).drop ds.reverse.length = '.' :: l.reverse :=
    List.drop_left _ _
  rw [hdrop]
  simp

/-- Claim C4: for every filename whose extension-stripped name ends in a dot
followed by one or more digits, the classifier sets `is_split=true`,
`part_number` to the value of that digit sequence, and `parsed_name` to the
name with the suffix removed; this holds whether or not a path is supplied
(the split check runs before any other parsing and no later stage touches
these fields). -/
theorem C4_split_detection (filename : String) (path : Option String)
    (base : String) (ds : List Char) (hne : ds ≠ [])
    (hdig : ∀ c ∈ ds, c.isDigit = true)
    (hdec : stripPdfExt filename = base ++ "." ++ String.mk ds) :
    (parse_textbook_metadata filename path).is_split = true ∧
    (parse_textbook_metadata filename path).part_number = some (digitsVal ds) ∧
    (parse_textbook_metadata filename path).parsed_name = base := by
  have h := classify_splitView filename path
  have h1 : (parse_textbook_metadata filename path).is_split = (initMetadata filename).is_split :=
    congrArg Prod.fst h
  have h2 : (parse_textbook_metadata filename path).part_number
      = (initMetadata filename).part_number := congrArg (fun t => t.2.1) h
  have h3 : (parse_textbook_metadata filename path).parsed_name
      = (initMetadata filename).parsed_name := congrArg (fun t => t.2.2) h
  rw [h1, h2, h3]
  unfold initMetadata
  dsimp only
  rw [hdec, splitSuffix_append base ds hne hdig]
  exact ⟨rfl, rfl, rfl⟩

/-- Claim C4, witness at the example from the specification:
`"精读.pdf.2"` yields `part_number = 2` and parsed name `"精读"`. -/
theorem C4_witness :
    (parse_textbook_metadata "精读.pdf.2" none).is_split = true ∧
    (parse_textbook_metadata "精读.pdf.2" none).part_number = some 2 ∧
    (parse_textbook_metadata "精读.pdf.2" none).parsed_name = "精读" := by
  have h := C4_split_detection "精读.pdf.2" none "精读" ['2'] (by decide) (by decide) (by decide)
  exact ⟨h.1, h.2.1, h.2.2⟩

/-! ## Claim C6 -/

/-- Under the merge-step trigger conditions, the classifier result is exactly
the merge of the structural parse with the special-rule result. -/
theorem classify_merge_eq (filename p : String)
    (hp : p ≠ "")
    (hpract : startsWithStr p "学数学最重要的刷习题在这里/" = false)
    (hlen : 3 ≤ (splitOnChar '/' p).length)
    (htrig : (structuralResult filename p).subject = "unknown" ∨
             (structuralResult filename p).grade = "unknown" ∨
             (structuralResult filename p).grade = (initMetadata filename).parsed_name)
    (hsub : (specialRuleResult filename p).subject ≠ "unknown") :
    parse_textbook_metadata filename (some p)
      = mergeSpecial (structuralResult filename p) (specialRuleResult filename p) := by
  unfold structuralResult at htrig ⊢
  unfold specialRuleResult at hsub ⊢
  unfold parse_textbook_metadata
  dsimp only
  rw [if_neg hp, if_neg (by simp [hpract]), if_pos hlen, if_pos htrig, if_pos hsub]

theorem mergeSpecial_level_keep (r : Metadata) (sp : SpecialMeta)
    (h : r.level ≠ "unknown") : (mergeSpecial r sp).level = r.level := by
  unfold mergeSpecial
  dsimp only
  repeat' split
  all_goals simp_all

theorem mergeSpecial_level_fill (r : Metadata) (sp : SpecialMeta)
    (h0 : r.level = "unknown") (h1 : sp.level ≠ "unknown") (h2 : sp.level ≠ "未知出版社") :
    (mergeSpecial r sp).level = sp.level := by
  unfold mergeSpecial
  dsimp only
  repeat' split
  all_goals simp_all

theorem mergeSpecial_subject (r : Metadata) (sp : SpecialMeta)
    (h1 : sp.subject ≠ "unknown") (h2 : sp.subject ≠ "未知出版社") :
    (mergeSpecial r sp).subject = sp.subject := by
  unfold mergeSpecial
  dsimp only
  repeat' split
  all_goals simp_all

theorem mergeSpecial_grade (r : Metadata) (sp : SpecialMeta)
    (h1 : sp.grade ≠ "unknown") (h2 : sp.grade ≠ "未知出版社") :
    (mergeSpecial r sp).grade = sp.grade := by
  unfold mergeSpecial
  dsimp only
  repeat' split
  all_goals simp_all

theorem mergeSpecial_semester (r : Metadata) (sp : SpecialMeta)
    (h1 : sp.semester ≠ "unknown") (h2 : sp.semester ≠ "未知出版社") :
    (mergeSpecial r sp).semester = sp.semester := by
  unfold mergeSpecial
  dsimp only
  repeat' split
  all_goals simp_all

theorem mergeSpecial_publisher (r : Metadata) (sp : SpecialMeta)
    (h1 : sp.publisher ≠ "unknown") (h2 : sp.publisher ≠ "未知出版社") :
    (mergeSpecial r sp).publisher = sp.publisher := by
  unfold mergeSpecial
  dsimp only
  repeat' split
  all_goals simp_all

/-- Claim C6: in the merge step after a structural path parse (path with at
least 3 segments, not the practice directory, merge triggered), every field
the special complex-filename rule resolves to a non-default value overwrites
the structural result EXCEPT `level`: whenever the structural parse resolved
`level` to a value other than `unknown`, the final record keeps the
structural level even if the special rule proposes a different one (and only
a structurally-unresolved level is filled from the special rule). -/
theorem C6_merge_overrides (filename p : String)
    (hp : p ≠ "")
    (hpract : startsWithStr p "学数学最重要的刷习题在这里/" = false)
    (hlen : 3 ≤ (splitOnChar '/' p).length)
    (htrig : (structuralResult filename p).subject = "unknown" ∨
             (structuralResult filename p).grade = "unknown" ∨
             (structuralResult filename p).grade = (initMetadata filename).parsed_name)
    (hsub : (specialRuleResult filename p).subject ≠ "unknown") :
    ((structuralResult filename p).level ≠ "unknown" →
       (parse_textbook_metadata filename (some p)).level = (structuralResult filename p).level) ∧
    ((structuralResult filename p).level = "unknown" →
       (specialRuleResult filename p).level ≠ "unknown" →
       (specialRuleResult filename p).level ≠ "未知出版社" →
       (parse_textbook_metadata filename (some p)).level = (specialRuleResult filename p).level) ∧
    ((specialRuleResult filename p).subject ≠ "未知出版社" →
       (parse_textbook_metadata filename (some p)).subject = (specialRuleResult filename p).subject) ∧
    ((specialRuleResult filename p).grade ≠ "unknown" →
       (specialRuleResult filename p).grade ≠ "未知出版社" →
       (parse_textbook_metadata filename (some p)).grade = (specialRuleResult filename p).grade) ∧
    ((specialRuleResult filename p).semester ≠ "unknown" →
       (specialRuleResult filename p).semester ≠ "未知出版社" →
       (parse_textbook_metadata filename (some p)).semester
         = (specialRuleResult filename p).semester) ∧
    ((specialRuleResult filename p).publisher ≠ "unknown" →
       (specialRuleResult filename p).publisher ≠ "未知出版社" →
       (parse_textbook_metadata filename (some p)).publisher
         = (specialRuleResult filename p).publisher) := by
  rw [classify_merge_eq filename p hp hpract hlen htrig hsub]
  refine ⟨?_, ?_, ?_, ?_, ?_, ?_⟩
  · intro h; exact mergeSpecial_level_keep _ _ h
  · intro h0 h1 h2; exact mergeSpecial_level_fill _ _ h0 h1 h2
  · intro h2; exact mergeSpecial_subject _ _ hsub h2
  · intro h1 h2; exact mergeSpecial_grade _ _ h1 h2
  · intro h1 h2; exact mergeSpecial_semester _ _ h1 h2
  · intro h1 h2; exact mergeSpecial_publisher _ _ h1 h2

/-- Claim C6, witness: a path whose second segment is empty (structural
subject unresolved, triggering the merge) and whose filename names the
special series with an embedded `初中` marker.  The special rule proposes
`level = 初中`, but the structurally-resolved `level = 高中` is kept, while
subject and publisher are overwritten by the special rule. -/
theorem C6_witness :
    (parse_textbook_metadata "习近平新时代中国特色社会主义思想学生读本（初中）.pdf"
        (some "高中//习近平新时代中国特色社会主义思想学生读本（初中）.pdf")).level = "高中" ∧
    (parse_textbook_metadata "习近平新时代中国特色社会主义思想学生读本（初中）.pdf"
        (some "高中//习近平新时代中国特色社会主义思想学生读本（初中）.pdf")).subject = "道德与法治" ∧
    (parse_textbook_metadata "习近平新时代中国特色社会主义思想学生读本（初中）.pdf"
        (some "高中//习近平新时代中国特色社会主义思想学生读本（初中）.pdf")).publisher = "人民出版社" ∧
    (specialRuleResult "习近平新时代中国特色社会主义思想学生读本（初中）.pdf"
        "高中//习近平新时代中国特色社会主义思想学生读本（初中）.pdf").level = "初中" := by
  have h := C6_merge_overrides
    "习近平新时代中国特色社会主义思想学生读本（初中）.pdf"
    "高中//习近平新时代中国特色社会主义思想学生读本（初中）.pdf"
    (by decide) (by decide) (by decide) (by decide) (by decide)
  refine ⟨?_, ?_, ?_, by decide⟩
  · exact (h.1 (by decide)).trans (by decide)
  · exact (h.2.2.1 (by decide)).trans (by decide)
  · exact (h.2.2.2.2.2 (by decide) (by decide)).trans (by decide)

/-! ## Claim C7 -/

/-- The structural parse of the path `大学/高等数学/课本.pdf` resolves grade
to `course` for any incoming record: the level maps to the `daxue`
configuration with `showGrades = false`, and the third segment is a leaf
file. -/
theorem parse_regular_daxue (r : Metadata) :
    (parse_regular ["大学", "高等数学", "课本.pdf"] r).grade = "course" ∧
    (parse_regular ["大学", "高等数学", "课本.pdf"] r).subject = "高等数学" :=
  ⟨rfl, rfl⟩

/-- Claim C7: for the path `大学/高等数学/课本.pdf`, whose first-segment
level `大学` maps to a configuration with `showGrades = false`, the
classifier returns `grade = "course"` rather than `unknown`, regardless of
the filename content. -/
theorem C7_daxue_course (filename : String) :
    (parse_textbook_metadata filename (some "大学/高等数学/课本.pdf")).grade = "course" := by
  have hg := (parse_regular_daxue (initMetadata filename)).1
  have hs := (parse_regular_daxue (initMetadata filename)).2
  unfold parse_textbook_metadata
  dsimp only
  rw [if_neg (by decide : ¬("大学/高等数学/课本.pdf" : String) = "")]
  rw [if_neg (by decide :
       ¬ startsWithStr "大学/高等数学/课本.pdf" "学数学最重要的刷习题在这里/" = true)]
  rw [if_pos (by decide : 3 ≤ (splitOnChar '/' "大学/高等数学/课本.pdf").length)]
  rw [show splitOnChar '/' "大学/高等数学/课本.pdf" = ["大学", "高等数学", "课本.pdf"] from by decide]
  by_cases hc : (initMetadata filename).parsed_name = "course"
  · rw [if_pos (Or.inr (Or.inr (hg.trans hc.symm)))]
    rw [hc]
    rw [if_neg (by decide :
         ¬ (parseSpecialComplexFilename "course" (some "大学/高等数学/课本.pdf")).subject ≠ "unknown")]
    exact hg
  · rw [if_neg ?hno]
    · exact hg
    case hno =>
      rintro (h | h | h)
      · rw [hs] at h; exact absurd h (by decide)
      · rw [hg] at h; exact absurd h (by decide)
      · rw [hg] at h; exact hc h.symm

/-! ## Claim C8 -/

/-- Removal of a suffix (used only to express the wording of the claim of
suffix replacement). -/
def dropSuffixStr (s t : String) : String :=
  String.mk (s.data.take (s.data.length - t.data.length))

/-- Publisher normalization as the claim words it: the suffix-replacement /
append rule replaces a `出版社` suffix by `版`, or appends `版` if the part
does not already end with either suffix. -/
def cleanPublisherClaimed (raw : String) : String :=
  if raw = "" then "未知出版社"
  else if containsSub raw "-" then
    let parts := splitOnChar '-' raw
    let first := parts.getD 0 ""
    if endsWithStr first "版" then first
    else
      let second := parts.getLastD ""
      if endsWithStr second "出版社" then dropSuffixStr second "出版社" ++ "版"
      else if endsWithStr second "版" then second
      else second ++ "版"
  else
    if endsWithStr raw "出版社" then dropSuffixStr raw "出版社" ++ "版"
    else if endsWithStr raw "版" then raw
    else raw ++ "版"

/-- Claim C8, counterexample: for the non-hyphenated input `新华社` (ends in
`社` but not in `出版社` or `版`) the rule as claimed appends `版`, while the
code returns the input unchanged (its single-name branch also accepts a bare
`社` ending). -/
theorem C8_counterexample :
    cleanPublisherName "新华社" = "新华社" ∧
    cleanPublisherClaimed "新华社" = "新华社版" ∧
    cleanPublisherName "新华社" ≠ cleanPublisherClaimed "新华社" := by
  refine ⟨by decide, by decide, by decide⟩

/-- The hyphenated-branch rule the code actually applies to the last part:
every occurrence of `出版社` is replaced (Python `str.replace`), and `版` is
appended only when the part does not already end with `版`. -/
def amendedHyphenRule (s : String) : String :=
  if endsWithStr s "出版社" then pubReplaceAll s
  else if endsWithStr s "版" then s
  else s ++ "版"

/-- Publisher normalization as amended: like the claim, except that (a) the
`出版社` → `版` rewrite applies to every occurrence of `出版社` in the chosen
part, not only to the suffix, and (b) a non-hyphenated input ending in `社`
(but not in `出版社`) is returned unchanged instead of getting `版`
appended. -/
def cleanPublisherAmended (raw : String) : String :=
  if raw = "" then "未知出版社"
  else if containsSub raw "-" then
    let parts := splitOnChar '-' raw
    let first := parts.getD 0 ""
    if endsWithStr first "版" then first
    else amendedHyphenRule (parts.getLastD "")
  else
    if endsWithStr raw "出版社" then pubReplaceAll raw
    else if endsWithStr raw "版" ∨ endsWithStr raw "社" then raw
    else raw ++ "版"

/-- Claim C8, amended: `_clean_publisher_name` implements exactly the
amended normalization rule on every input (first hyphen-delimited part wins
when it ends with `版`; otherwise the last part is normalized by the
replace-all / append rule; a non-hyphenated input follows the same rule with
the extra `社`-ending exception; empty input yields the sentinel). -/
theorem C8_publisher_normalization (raw : String) :
    cleanPublisherName raw = cleanPublisherAmended raw := by
  unfold cleanPublisherName cleanPublisherAmended amendedHyphenRule
  dsimp only
  repeat' split
  all_goals simp_all

/-! ## Claim C10 -/

/-- With the default configuration every level is enabled and has no ignore
patterns, so `should_ignore_path` never fires. -/
theorem shouldIgnorePath_false (p k : String) : shouldIgnorePath p k = false := by
  unfold shouldIgnorePath
  cases hk : defaultLevels k with
  | none => rfl
  | some cfg =>
    have hen : cfg.enabled = true := by
      unfold defaultLevels at hk
      repeat' split at hk
      all_goals simp_all
      all_goals exact (congrArg LevelConfig.enabled hk.symm)
    simp [hen]

/-- Claim C10: `process_tree_data` creates a textbook record for a
repository entry exactly when its type is `blob` and its path ends with
`.pdf` or `.PDF` or matches the split-file pattern `.pdf.<digits>`
(case-insensitively) at the end; tree entries and blobs with any other name
shape produce no record. -/
theorem C10_record_creation (item : TreeItem) :
    (processTreeItem item).isSome = true ↔
      (item.type = "blob" ∧
       (endsWithStr item.path ".pdf" = true ∨ endsWithStr item.path ".PDF" = true ∨
        endsWithSplitPdf true item.path = true)) := by
  unfold processTreeItem
  split
  case isTrue h =>
    have hrhs : item.type = "blob" ∧
        (endsWithStr item.path ".pdf" = true ∨ endsWithStr item.path ".PDF" = true ∨
         endsWithSplitPdf true item.path = true) := by
      obtain ⟨h1, h2⟩ := h
      refine ⟨h1, ?_⟩
      simpa [Bool.or_eq_true, or_assoc] using h2
    cases hk : getLevelKey item.path with
    | some k => simp [hk, shouldIgnorePath_false, hrhs]
    | none => simp [hk, hrhs]
  case isFalse h =>
    simp only [Option.isSome_none]
    constructor
    · intro hc
      exact absurd hc (by decide)
    · intro hc
      exact absurd ⟨hc.1, by simpa [Bool.or_eq_true, or_assoc] using hc.2⟩ h
